import Mathlib

/-!
# uinth: userspace interrupt dispatcher

A shallow embedding of `src/uinth.c`.  The program binds configured interrupt
sources to UIO devices, optionally resolves a GPIO line per source, and then
runs an endless arm / poll / drain loop.

Conventions of the embedding

* C strings are `List Char` values without the terminating NUL; raw byte
  buffers are `List Nat` (each entry a byte).
* Results of system calls are inputs of the model: the discovery phase reads
  them from `UioDev` records, the dispatch loop from one `IterEnv` per loop
  iteration.
* Everything the program does to the outside world is recorded as a list of
  `Event`s, in program order.
* `struct interrupt` fields that `read_config` never assigns are taken as zero
  (the loop's own `!cint->p` test relies on that).
* The parsing done by `read_config` and the `modprobe` call are outside the
  model: `main` starts from the parsed sections, at line 146.
* The host is little-endian, as the unconditional `__bswap_32` assumes.
-/

namespace Uinth

/-! ## Constants -/

/-- Size of every scratch buffer: `#define BUFSIZE 256`. -/
def BUFSIZE : Nat := 256

/-- Flag bit 0: `#define FLAG_GPIO_VALUE (1<<0)`. -/
def FLAG_GPIO_VALUE : Int := 1

/-- The `POLLIN` event bit of `poll.h`. -/
def POLLIN : Int := 1

/-! ## libc pieces used by the program -/

/-- The characters one `fgets` call consumes: at most `n` of them, stopping
right after the first newline (byte 10). -/
def fgetsChunk : Nat → List Nat → List Nat
  | 0, _ => []
  | _, [] => []
  | n + 1, b :: bs => if b = 10 then [b] else b :: fgetsChunk n bs

/-- Store `chunk` followed by a NUL at the start of `buf`, leaving the bytes
behind it as they were. -/
def storeLine (buf chunk : List Nat) : List Nat :=
  chunk ++ 0 :: buf.drop (chunk.length + 1)

/-- One call `fgets(buf, size, fp)` where `stream` is what is left of the
file: `none` is the NULL result at end of file (the buffer is not touched),
otherwise the new buffer and the rest of the stream. -/
def fgets (size : Nat) (buf stream : List Nat) : Option (List Nat × List Nat) :=
  match stream with
  | [] => none
  | _ :: _ =>
    let chunk := fgetsChunk (size - 1) stream
    some (storeLine buf chunk, stream.drop chunk.length)

/-- The loop `while (fgets(buf, sizeof(buf), fp) != NULL) {}`; `fuel` bounds
the number of calls. The result is the buffer when `fgets` returned NULL. -/
def fgetsAll (size : Nat) : Nat → List Nat → List Nat → List Nat
  | 0, buf, _ => buf
  | fuel + 1, buf, stream =>
    match fgets size buf stream with
    | none => buf
    | some (buf1, rest) => fgetsAll size fuel buf1 rest

/-- The loop run on a whole file: every successful call consumes at least one
byte, so `length + 1` calls always reach the NULL result. -/
def readLastLine (buf file : List Nat) : List Nat :=
  fgetsAll BUFSIZE (file.length + 1) buf file

/-- The value of `*(uint32_t*) buf` on the little-endian hosts the program is
written for. -/
def load32 (buf : List Nat) : Nat :=
  (buf.getD 0 0 % 256) + (buf.getD 1 0 % 256) * 256 + (buf.getD 2 0 % 256) * 65536
    + (buf.getD 3 0 % 256) * 16777216

/-- The glibc `__bswap_32`. -/
def bswap32 (x : Nat) : Nat :=
  (x / 16777216 % 256) + (x / 65536 % 256) * 256 + (x / 256 % 256) * 65536
    + (x % 256) * 16777216

/-- Lines 255-258 of `main`: read the `gpios` property with the `fgets` loop
into `buf` and byte-swap the first four buffer bytes. -/
def readGpionum (buf file : List Nat) : Nat :=
  bswap32 (load32 (readLastLine buf file))

/-- The 32-bit big-endian integer formed by the first four bytes of a file
(what the comment on line 248 says `gpionum` is). -/
def bigEndian32 (file : List Nat) : Nat :=
  (file.getD 0 0 % 256) * 16777216 + (file.getD 1 0 % 256) * 65536
    + (file.getD 2 0 % 256) * 256 + (file.getD 3 0 % 256)

/-- The test `(flags & FLAG_GPIO_VALUE) != 0` on a two's-complement `int`:
the mask is the single bit 0, so the test asks whether that bit is set. -/
def wantsGpioValue (flags : Int) : Bool :=
  flags / FLAG_GPIO_VALUE % 2 != 0

/-- The C string held in a character buffer: the characters before the first
NUL. -/
def cstr (buf : List Char) : List Char :=
  buf.takeWhile (fun ch => ch != Char.ofNat 0)

/-- The text `%d` prints for a non-negative `int`. -/
def decimal (v : Nat) : List Char :=
  Nat.toDigits 10 v

/-- Expansion of a `printf` format with the single `int` argument `v`, read
character by character; `conv` tells that the previous character opened a
conversion. The modelled conversions are `%d` and `%%`; `none` stands for any
other conversion (whose output this model does not describe). -/
def expandAux (v : Nat) : Bool → List Char → Option (List Char)
  | false, [] => some []
  | true, [] => none
  | false, ch :: rest =>
    if ch = '%' then expandAux v true rest
    else (expandAux v false rest).map (fun out => ch :: out)
  | true, ch :: rest =>
    if ch = 'd' then (expandAux v false rest).map (fun out => decimal v ++ out)
    else if ch = '%' then (expandAux v false rest).map (fun out => '%' :: out)
    else none

/-- Expansion of a whole format string. -/
def expandFormat (v : Nat) (fmt : List Char) : Option (List Char) :=
  expandAux v false fmt

/-- The string left in `buf` by `snprintf(buf, size, fmt, v)`: the expansion
cut to `size - 1` characters. -/
def snprintf (size : Nat) (fmt : List Char) (v : Nat) : Option (List Char) :=
  (expandFormat v fmt).map (fun out => out.take (size - 1))

/-! ## Data model -/

/-- One `struct pollfd`. -/
structure Pollfd where
  fd : Int
  events : Int
  revents : Int
  deriving DecidableEq, Repr

instance : Inhabited Pollfd := ⟨⟨0, 0, 0⟩⟩

/-- One `struct interrupt`. The pointer `p` into the `pfds` array is the index
of the slot it points to, `none` for NULL; the same for the strings that may be
NULL. -/
structure Interrupt where
  id : List Char
  uio_idx : Nat
  p : Option Nat
  flags : Int
  gpiochip : Option (List Char)
  gpionum : Nat
  gpioc_fd : Int
  gpio_fd : Int
  cmd : Option (List Char)
  deriving DecidableEq, Repr

/-- One `[chapter]` of the configuration file with the two keys `read_config`
stores for it. -/
structure Section where
  id : List Char
  flags : Int
  cmd : Option (List Char)
  deriving DecidableEq, Repr

/-- The `struct interrupt` that `read_config` leaves for a section. -/
def Section.toInterrupt (s : Section) : Interrupt :=
  { id := s.id, uio_idx := 0, p := none, flags := s.flags, gpiochip := none,
    gpionum := 0, gpioc_fd := 0, gpio_fd := 0, cmd := s.cmd }

/-- The globals after `read_config`: one `struct interrupt` and one (unused so
far) `struct pollfd` per section. -/
def configInts (cfg : List Section) : List Interrupt :=
  cfg.map Section.toInterrupt

/-- What the system answers during the GPIO resolution of one device
(lines 187-313). -/
structure GpioEnv where
  -- whether popen of the "ls .../supplier*/..." command returned a stream
  popenOk : Bool
  -- whether the MAJOR:MINOR file could be opened
  majminOk : Bool
  -- whether the uevent file could be opened
  ueventOk : Bool
  -- the path /dev/<DEVNAME> assembled in buf2 from the uevent file
  devnode : List Char
  -- contents of buf after the gpiopath file has been read, none when the
  -- file could not be opened
  gpiopathBuf : Option (List Nat)
  -- contents of the device-tree gpios property, none when it could not be
  -- opened
  gpios : Option (List Nat)
  -- result of open(cint->gpiochip, O_RDONLY)
  chipFd : Int
  -- results of the three ioctl calls on the controller
  chipinfoRet : Int
  lineinfoRet : Int
  linehandleRet : Int
  -- the rq.fd filled in by GPIO_GET_LINEHANDLE_IOCTL
  lineFd : Int

/-- What the system answers for one UIO device `/dev/uio<i>`; a device number
past the end of the enumeration does not exist, and opening its `name` file
fails. -/
structure UioDev where
  -- bytes read from /sys/class/uio/uio<i>/name (the name and a newline)
  nameData : List Char
  -- result of open("/dev/uio<i>", O_RDWR)
  devFd : Int
  -- answers during GPIO resolution
  gpio : GpioEnv
  -- value of errno after a failing call on this device
  errno : Int

/-- The value of `errno` after opening a file that does not exist. -/
def ENOENT : Int := 2

/-! ## Discovery phase (lines 146-318) -/

/-- Lines 156-160: the buffer is zeroed, filled by `read`, and its last read
byte is overwritten with NUL; the result is the string `strcmp` sees. -/
def devName (d : UioDev) : List Char :=
  let nb := min d.nameData.length BUFSIZE
  let buf := (d.nameData.take nb ++ List.replicate (BUFSIZE - nb) (Char.ofNat 0)).set
    (nb - 1) (Char.ofNat 0)
  cstr buf

/-- Lines 187-312 for one source: every failing step returns `-errno`. -/
def resolveGpio (g : GpioEnv) (errno : Int) (c : Interrupt) : Except Int Interrupt :=
  if g.popenOk = false then .error (-errno) else
  if g.majminOk = false then .error (-errno) else
  if g.ueventOk = false then .error (-errno) else
  match g.gpiopathBuf with
  | none => .error (-errno)
  | some buf =>
    match g.gpios with
    | none => .error (-errno)
    | some file =>
      if g.chipFd < 0 then .error (-errno) else
      if g.chipinfoRet = -1 then .error (-errno) else
      if g.lineinfoRet = -1 then .error (-errno) else
      if g.linehandleRet = -1 then .error (-errno) else
      .ok { c with gpiochip := some g.devnode, gpionum := readGpionum buf file,
                   gpioc_fd := g.chipFd, gpio_fd := g.lineFd }

/-- Lines 171-313: bind source `c` to device number `i`, taking the next free
`pfds` slot `n_pfds`. -/
def bindSource (i : Nat) (d : UioDev) (c : Interrupt) (n_pfds : Nat) (pfds : List Pollfd) :
    Except Int (Interrupt × Nat × List Pollfd) :=
  let c1 := { c with uio_idx := i, p := some n_pfds }
  if d.devFd < 0 then .error (-d.errno) else
  let pfds1 := pfds.set n_pfds { pfds.getD n_pfds default with fd := d.devFd, events := POLLIN }
  if wantsGpioValue c1.flags then
    match resolveGpio d.gpio d.errno c1 with
    | .error e => .error e
    | .ok c2 => .ok (c2, n_pfds + 1, pfds1)
  else
    .ok (c1, n_pfds + 1, pfds1)

/-- Lines 165-317: the inner loop over the sources, which binds the first one
whose `id` equals the device name and then leaves (`break`). -/
def matchLoop (i : Nat) (d : UioDev) (n_pfds : Nat) (pfds : List Pollfd) :
    List Interrupt → Except Int (List Interrupt × Nat × List Pollfd)
  | [] => .ok ([], n_pfds, pfds)
  | c :: cs =>
    if devName d = c.id then
      match bindSource i d c n_pfds pfds with
      | .error e => .error e
      | .ok (c1, n1, pfds1) => .ok (c1 :: cs, n1, pfds1)
    else
      match matchLoop i d n_pfds pfds cs with
      | .error e => .error e
      | .ok (cs1, n1, pfds1) => .ok (c :: cs1, n1, pfds1)

/-- Lines 148-317 for device number `i`: read its name, then run the inner
loop. -/
def probeDevice (i : Nat) (d : UioDev) (ints : List Interrupt) (n_pfds : Nat)
    (pfds : List Pollfd) : Except Int (List Interrupt × Nat × List Pollfd) :=
  if d.nameData.length < 1 then .error (-1) else matchLoop i d n_pfds pfds ints

/-- The outer loop `for (i=0; i<n_ints; i++)`: `todo` iterations are left, `i`
is the next device number and `devs` the devices from that number on. -/
def discoverLoop : Nat → Nat → List UioDev → List Interrupt → Nat → List Pollfd →
    Except Int (List Interrupt × Nat × List Pollfd)
  | 0, _, _, ints, n_pfds, pfds => .ok (ints, n_pfds, pfds)
  | _ + 1, _, [], _, _, _ => .error (-ENOENT)
  | todo + 1, i, d :: ds, ints, n_pfds, pfds =>
    match probeDevice i d ints n_pfds pfds with
    | .error e => .error e
    | .ok (ints1, n1, pfds1) => discoverLoop todo (i + 1) ds ints1 n1 pfds1

/-- The discovery phase of `main` for a parsed configuration and the
enumeration `devs` of UIO devices (`devs[i]` is `/dev/uio<i>`). -/
def discover (cfg : List Section) (devs : List UioDev) :
    Except Int (List Interrupt × Nat × List Pollfd) :=
  discoverLoop cfg.length 0 devs (configInts cfg) 0 (List.replicate cfg.length default)

/-! ## Dispatch loop (lines 320-385) -/

/-- Diagnostics written to `stderr` by the loop. -/
inductive Diag where
  | writeUmask
  | gpioLineValues
  | unexpectedAmount
  | pollReturned
  deriving DecidableEq, Repr

/-- What the loop does to the outside world. `j` is the index of the source in
`ints` on whose behalf the call is made. -/
inductive Event where
  -- write(fd, &info, 4) with info = token, returning nb
  | write (j : Nat) (fd : Int) (token : Nat) (nb : Int)
  -- poll(pfds, n_pfds, -1) returning r
  | poll (n_pfds : Nat) (r : Int)
  -- read(fd, &info, 4) returning nb; val is the counter the device delivers
  | read (j : Nat) (fd : Int) (nb : Int) (val : Nat)
  -- ioctl(fd, GPIOHANDLE_GET_LINE_VALUES_IOCTL, &data) returning r
  | gpioGet (j : Nat) (fd : Int) (r : Int)
  -- system(cmd); none when the command text is outside the model of snprintf
  | system (j : Nat) (cmd : Option (List Char))
  -- text printed to stdout
  | stdout (j : Nat) (line : List Char)
  -- diagnostic printed to stderr
  | stderr (what : Diag)
  deriving DecidableEq, Repr

/-- What the system answers during one iteration of the `while (1)` loop. -/
structure IterEnv where
  -- result of the write in the arm phase for source j
  writeRet : Nat → Int
  -- errno after a failing write
  errno : Int
  -- result of poll, and the revents it stores in slot k of pfds
  pollRet : Int
  revents : Nat → Int
  -- result of the read for source j and the counter it delivers
  readRet : Nat → Int
  readVal : Nat → Nat
  -- result of the line-value ioctl for source j and the data.values[0] it fills in
  ioctlRet : Nat → Int
  gpioVal : Nat → Nat

/-- The globals the loop works on, and its local `info`. -/
structure State where
  ints : List Interrupt
  pfds : List Pollfd
  n_pfds : Nat
  info : Nat

/-- Outcome of a stretch of the loop: what it did, the `pfds` array and
`info` it leaves, and the value `main` returns if it returned. -/
structure Step where
  events : List Event
  pfds : List Pollfd
  info : Nat
  ret : Option Int
  deriving DecidableEq, Repr

/-- The line `int: <id> GPIO value: <v>`. -/
def gpioLogLine (id : List Char) (v : Nat) : List Char :=
  "int: ".toList ++ id ++ " GPIO value: ".toList ++ decimal v ++ "\n".toList

/-- The line `int: <id>`. -/
def logLine (id : List Char) : List Char :=
  "int: ".toList ++ id ++ "\n".toList

/-- Lines 323-334, the arm phase, from source number `j` on: the events and
the value returned by `main` when a write fails. -/
def armPhase (env : IterEnv) (pfds : List Pollfd) (info : Nat) :
    Nat → List Interrupt → List Event × Option Int
  | _, [] => ([], none)
  | j, c :: cs =>
    match c.p with
    | none => armPhase env pfds info (j + 1) cs
    | some k =>
      let fd := (pfds.getD k default).fd
      let nb := env.writeRet j
      if nb ≠ 4 then
        ([Event.write j fd info nb, Event.stderr Diag.writeUmask], some (-env.errno))
      else
        let r := armPhase env pfds info (j + 1) cs
        (Event.write j fd info nb :: r.1, r.2)

/-- Lines 345-371: what is done after a 4-byte read for source `c`. -/
def dispatch (env : IterEnv) (verbose : Bool) (j : Nat) (c : Interrupt) : List Event :=
  if wantsGpioValue c.flags then
    let r := env.ioctlRet j
    if r = -1 then
      [Event.gpioGet j c.gpio_fd r, Event.stderr Diag.gpioLineValues]
    else
      let v := env.gpioVal j % 256
      match c.cmd with
      | some cmd =>
        [Event.gpioGet j c.gpio_fd r, Event.system j (snprintf BUFSIZE cmd v)]
          ++ (if verbose then [Event.stdout j (gpioLogLine c.id v)] else [])
      | none => [Event.gpioGet j c.gpio_fd r, Event.stdout j (gpioLogLine c.id v)]
  else
    match c.cmd with
    | some cmd =>
      Event.system j (some cmd) :: (if verbose then [Event.stdout j (logLine c.id)] else [])
    | none => [Event.stdout j (logLine c.id)]

/-- Lines 373-374: `p->events = POLLIN; p->revents = 0;` for the slot `k`. -/
def clearReady (pfds : List Pollfd) (k : Nat) : List Pollfd :=
  pfds.set k { pfds.getD k default with events := POLLIN, revents := 0 }

/-- Lines 340-379: the body of the drain loop for source number `j`. -/
def drainOne (env : IterEnv) (verbose : Bool) (j : Nat) (c : Interrupt)
    (pfds : List Pollfd) (info : Nat) : Step :=
  match c.p with
  | none => ⟨[], pfds, info, none⟩
  | some k =>
    let pf := pfds.getD k default
    if pf.revents = 0 then ⟨[], pfds, info, none⟩
    else
      let nb := env.readRet j
      let val := env.readVal j % 4294967296
      if nb = 4 then
        ⟨Event.read j pf.fd nb val :: dispatch env verbose j c, clearReady pfds k, val, none⟩
      else
        ⟨[Event.read j pf.fd nb val, Event.stderr Diag.unexpectedAmount], pfds, info,
          some (-1)⟩

/-- Lines 339-380, the drain phase, from source number `j` on. -/
def drain (env : IterEnv) (verbose : Bool) :
    Nat → List Interrupt → List Pollfd → Nat → Step
  | _, [], pfds, info => ⟨[], pfds, info, none⟩
  | j, c :: cs, pfds, info =>
    let s := drainOne env verbose j c pfds info
    match s.ret with
    | some e => ⟨s.events, s.pfds, s.info, some e⟩
    | none =>
      let r := drain env verbose (j + 1) cs s.pfds s.info
      ⟨s.events ++ r.events, r.pfds, r.info, r.ret⟩

/-- What a successful `poll` does to the array: it stores `revents` in each of
the first `n_pfds` slots. -/
def pollStore (env : IterEnv) (n_pfds : Nat) (pfds : List Pollfd) : List Pollfd :=
  pfds.enum.map (fun kp => if kp.1 < n_pfds then { kp.2 with revents := env.revents kp.1 } else kp.2)

/-- One pass through the body of `while (1)` (lines 322-384). -/
def iteration (env : IterEnv) (verbose : Bool) (st : State) : Step :=
  let a := armPhase env st.pfds st.info 0 st.ints
  match a.2 with
  | some e => ⟨a.1, st.pfds, st.info, some e⟩
  | none =>
    let r := env.pollRet
    if 1 ≤ r then
      let d := drain env verbose 0 st.ints (pollStore env st.n_pfds st.pfds) st.info
      ⟨a.1 ++ Event.poll st.n_pfds r :: d.events, d.pfds, d.info, d.ret⟩
    else
      ⟨a.1 ++ [Event.poll st.n_pfds r, Event.stderr Diag.pollReturned], st.pfds, st.info,
        some (-1)⟩

/-- A run of `main`: the events in program order and the value returned, `none`
while the loop is still running. -/
structure Run where
  trace : List Event
  ret : Option Int
  deriving DecidableEq, Repr

/-- The loop `while (1)` driven by the answers of the system, one `IterEnv` per
iteration; the run is cut off (still running) when the answers are used up. -/
def mainLoop (verbose : Bool) : List IterEnv → State → Run
  | [], _ => ⟨[], none⟩
  | env :: envs, st =>
    let s := iteration env verbose st
    match s.ret with
    | some e => ⟨s.events, some e⟩
    | none =>
      let r := mainLoop verbose envs { st with pfds := s.pfds, info := s.info }
      ⟨s.events ++ r.trace, r.ret⟩

/-- The function `main` from line 146 on (the configuration has been read and
the kernel module loaded): discovery, then the loop with `info = 1`. -/
def main (cfg : List Section) (devs : List UioDev) (verbose : Bool) (envs : List IterEnv) :
    Run :=
  match discover cfg devs with
  | .error e => ⟨[], some e⟩
  | .ok (ints, n_pfds, pfds) => mainLoop verbose envs ⟨ints, pfds, n_pfds, 1⟩


/-! ## Example data and derived notions -/

/-- A GPIO environment in which every resolution step succeeds; the `gpios`
property names line 5. -/
def gpioOk : GpioEnv :=
  ⟨true, true, true, "/dev/gpiochip0".toList, some [], some [0, 0, 0, 5, 0, 0, 0, 0], 7, 0, 0, 0, 9⟩

/-- The device named `timer`. -/
def devTimer : UioDev := ⟨"timer\n".toList, 3, gpioOk, 0⟩

/-- The device named `button`. -/
def devButton : UioDev := ⟨"button\n".toList, 4, gpioOk, 0⟩

/-- The configuration of the scenario: `button` (flags=1, cmd="led %d") and
`timer` (flags=0, no cmd). -/
def cfgButtonTimer : List Section :=
  [⟨"button".toList, 1, some "led %d".toList⟩, ⟨"timer".toList, 0, none⟩]

/-- A configuration with the single source `button`. -/
def cfgButton : List Section :=
  [⟨"button".toList, 1, some "led %d".toList⟩]

/-- The number of resolved sources: those whose `p` is not NULL. -/
def boundCount (ints : List Interrupt) : Nat :=
  ints.countP (fun c => c.p.isSome)

/-- The number of configured identifiers equal to the name of one of the
devices `devs`. -/
def matchedCount (cfg : List Section) (devs : List UioDev) : Nat :=
  cfg.countP (fun s => decide (s.id ∈ devs.map devName))

/-- Whether a result is a success. -/
def succeeds {α : Type} (r : Except Int α) : Bool :=
  match r with
  | .ok _ => true
  | .error _ => false

/-- Whether the inner loop succeeds depends only on the device and on the
`id` and `flags` of the sources. -/
def probeSucceeds (d : UioDev) : List (List Char × Int) → Bool
  | [] => true
  | (id, flags) :: rest =>
    if devName d = id then
      decide (0 ≤ d.devFd) &&
        (!wantsGpioValue flags ||
          succeeds (resolveGpio d.gpio d.errno (Section.toInterrupt ⟨id, flags, none⟩)))
    else probeSucceeds d rest

/-- Whether device `d` passes one iteration of the outer loop. -/
def deviceUsable (keys : List (List Char × Int)) (d : UioDev) : Bool :=
  decide (1 ≤ d.nameData.length) && probeSucceeds d keys

/-- The writes a complete arm phase consists of: one 4-byte write of `info`
per source with a handle (`p` not NULL), in the order of `ints`, numbered from
`j0`. -/
def armWrites (pfds : List Pollfd) (info : Nat) (j0 : Nat) (ints : List Interrupt) :
    List Event :=
  (ints.enumFrom j0).filterMap
    (fun jc => jc.2.p.map (fun k => Event.write jc.1 (pfds.getD k default).fd info 4))

/-- Whether every write of the arm phase transfers 4 bytes. -/
def writesOk (env : IterEnv) (j0 : Nat) (ints : List Interrupt) : Prop :=
  ∀ jc ∈ ints.enumFrom j0, jc.2.p.isSome = true → env.writeRet jc.1 = 4

instance (env : IterEnv) (j0 : Nat) (ints : List Interrupt) :
    Decidable (writesOk env j0 ints) := by
  unfold writesOk
  infer_instance

/-- Whether an event is part of draining or dispatching source number `j`: the
event-counter read, the GPIO value query, the command execution or the log
line. -/
def Event.touches (j : Nat) : Event → Bool
  | .read j2 _ _ _ => j2 == j
  | .gpioGet j2 _ _ => j2 == j
  | .system j2 _ => j2 == j
  | .stdout j2 _ => j2 == j
  | _ => false

/-- Whether an event is an event-counter read that did not return 4 bytes. -/
def Event.isBadRead : Event → Bool
  | .read _ _ nb _ => nb != 4
  | _ => false

/-- Every malformed read of the trace is followed by the diagnostic alone, and
`main` has returned -1. -/
def BadReadsFatal (ret : Option Int) : List Event → Prop
  | [] => True
  | e :: rest =>
    (e.isBadRead = true → rest = [Event.stderr Diag.unexpectedAmount] ∧ ret = some (-1)) ∧
      BadReadsFatal ret rest

/-- The state of the loop after discovery in the scenario (`timer` is `uio0`,
`button` is `uio1`), with `info = 1`. -/
def stScenario : State :=
  { ints := [ { id := "button".toList, uio_idx := 1, p := some 1, flags := 1,
                gpiochip := some "/dev/gpiochip0".toList, gpionum := 5, gpioc_fd := 7,
                gpio_fd := 9, cmd := some "led %d".toList },
              { id := "timer".toList, uio_idx := 0, p := some 0, flags := 0, gpiochip := none,
                gpionum := 0, gpioc_fd := 0, gpio_fd := 0, cmd := none } ],
    pfds := [⟨3, 1, 0⟩, ⟨4, 1, 0⟩],
    n_pfds := 2,
    info := 1 }

/-- An iteration in which both sources are ready, the counters read are 7 and
8, and the GPIO line reads 1. -/
def envBoth : IterEnv :=
  { writeRet := fun _ => 4, errno := 0, pollRet := 1, revents := fun _ => 1,
    readRet := fun _ => 4, readVal := fun j => 7 + j, ioctlRet := fun _ => 0,
    gpioVal := fun _ => 1 }

/-- An iteration in which only `timer` (slot 0) is ready. -/
def envTimerOnly : IterEnv :=
  { envBoth with revents := fun k => if k = 0 then 1 else 0 }

/-- An iteration in which both sources are ready and the read for `button`
returns 2 bytes. -/
def envShortRead : IterEnv :=
  { envBoth with readRet := fun j => if j = 0 then 2 else 4 }

/-- An iteration in which both sources are ready and the GPIO value query for
`button` fails. -/
def envGpioFails : IterEnv :=
  { envBoth with ioctlRet := fun _ => -1 }

/-- An iteration in which both sources are ready and the counters read are 5
and 0. -/
def envCounterZero : IterEnv :=
  { envBoth with readVal := fun j => if j = 0 then 5 else 0 }

/-- An iteration in which both sources are ready and the counters read are 5
(`button`) and then 1 (`timer`). -/
def envFiveOne : IterEnv :=
  { envBoth with readVal := fun j => if j = 0 then 5 else 1 }

/-- The counter a successful 4-byte event read stores in `info`. -/
def Event.readValue : Event → Option Nat
  | .read _ _ nb val => if nb = 4 then some val else none
  | _ => none

/-- The token an arm-phase write sends. -/
def Event.token : Event → Option Nat
  | .write _ _ tok _ => some tok
  | _ => none

/-- The counter stored by the most recent successful 4-byte event read of a
trace, `none` when it has none. -/
def lastRead : List Event → Option Nat
  | [] => none
  | e :: rest =>
    match lastRead rest with
    | some v => some v
    | none => e.readValue

/-- The value `info` holds after the events of a trace when it held `info`
before: every successful read overwrites it. -/
def infoAfter (info : Nat) : List Event → Nat
  | [] => info
  | e :: rest => infoAfter (e.readValue.getD info) rest

/-- Every write of the trace sends the value `info` holds at that point. -/
def TokensOk (info : Nat) : List Event → Prop
  | [] => True
  | e :: rest => (∀ tok, e.token = some tok → tok = info) ∧
      TokensOk (e.readValue.getD info) rest

/-- The `pfds` array of the scenario after a `poll` that found both handles
readable. -/
def pfdsReady : List Pollfd := [⟨3, 1, 1⟩, ⟨4, 1, 1⟩]

/-- The source `button` of the scenario with the command template `echo %d`. -/
def srcEcho : Interrupt :=
  { id := "button".toList, uio_idx := 1, p := some 1, flags := 1,
    gpiochip := some "/dev/gpiochip0".toList, gpionum := 5, gpioc_fd := 7, gpio_fd := 9,
    cmd := some "echo %d".toList }

/-- The source `timer` of the scenario, which has no command. -/
def srcTimer : Interrupt :=
  { id := "timer".toList, uio_idx := 0, p := some 0, flags := 0, gpiochip := none,
    gpionum := 0, gpioc_fd := 0, gpio_fd := 0, cmd := none }

theorem resolveGpio_fields {g : GpioEnv} {e : Int} {c c2 : Interrupt}
    (h : resolveGpio g e c = .ok c2) :
    c2.p = c.p ∧ c2.id = c.id ∧ c2.flags = c.flags := by
  unfold resolveGpio at h
  repeat' split at h
  all_goals first
    | (injection h with h; subst h; exact ⟨rfl, rfl, rfl⟩)
    | cases h

theorem bindSource_fields {i : Nat} {d : UioDev} {c c1 : Interrupt} {n n1 : Nat}
    {pfds pfds1 : List Pollfd} (h : bindSource i d c n pfds = .ok (c1, n1, pfds1)) :
    c1.p.isSome = true ∧ c1.id = c.id ∧ c1.flags = c.flags := by
  simp only [bindSource] at h
  split at h
  · cases h
  · split at h
    · split at h
      · cases h
      · rename_i c2 hg
        injection h with h
        simp only [Prod.mk.injEq] at h
        obtain ⟨h1, -, -⟩ := h
        subst h1
        obtain ⟨hp, hid, hfl⟩ := resolveGpio_fields hg
        exact ⟨by rw [hp]; rfl, hid, hfl⟩
    · injection h with h
      simp only [Prod.mk.injEq] at h
      obtain ⟨h1, -, -⟩ := h
      subst h1
      exact ⟨rfl, rfl, rfl⟩

/-- The inner loop keeps every `id` and `flags`, and, when the identifiers are
pairwise distinct, binds exactly the sources named after the device. -/
theorem matchLoop_ok {i : Nat} {d : UioDev} {n : Nat} {pfds : List Pollfd} :
    ∀ {ints ints1 : List Interrupt} {n1 : Nat} {pfds1 : List Pollfd},
      matchLoop i d n pfds ints = .ok (ints1, n1, pfds1) →
      ints1.map (fun c => c.id) = ints.map (fun c => c.id) ∧
      ints1.map (fun c => c.flags) = ints.map (fun c => c.flags) ∧
      ((ints.map (fun c => c.id)).Nodup →
        ints1.map (fun c => c.p.isSome) =
          ints.map (fun c => c.p.isSome || decide (c.id = devName d))) := by
  intro ints
  induction ints with
  | nil =>
    intro ints1 n1 pfds1 h
    simp only [matchLoop] at h
    injection h with h
    simp only [Prod.mk.injEq] at h
    obtain ⟨h1, -, -⟩ := h
    subst h1
    simp
  | cons c cs ih =>
    intro ints1 n1 pfds1 h
    simp only [matchLoop] at h
    split at h
    · rename_i hname
      split at h
      · cases h
      · rename_i c1 n2 pfds2 hb
        injection h with h
        simp only [Prod.mk.injEq] at h
        obtain ⟨h1, -, -⟩ := h
        subst h1
        obtain ⟨hp, hid, hfl⟩ := bindSource_fields hb
        refine ⟨by simp [hid], by simp [hfl], ?_⟩
        intro hnd
        simp only [List.map_cons, List.nodup_cons, List.mem_map, not_exists, not_and] at hnd
        simp only [List.map_cons, hp, hname, decide_True, Bool.or_true, List.cons.injEq, true_and]
        apply List.map_congr_left
        intro c2 hc2
        have : ¬ (c2.id = c.id) := hnd.1 c2 hc2
        simp [this]
    · rename_i hname
      split at h
      · cases h
      · rename_i cs1 n2 pfds2 hm
        injection h with h
        simp only [Prod.mk.injEq] at h
        obtain ⟨h1, -, -⟩ := h
        subst h1
        obtain ⟨hids, hfls, hb⟩ := ih hm
        refine ⟨by simp [hids], by simp [hfls], ?_⟩
        intro hnd
        simp only [List.map_cons, List.nodup_cons] at hnd
        have hne : ¬ (c.id = devName d) := fun hc => hname hc.symm
        simp [hb hnd.2, hne]

theorem resolveGpio_succeeds (g : GpioEnv) (e : Int) (c c2 : Interrupt) :
    succeeds (resolveGpio g e c) = succeeds (resolveGpio g e c2) := by
  unfold resolveGpio
  repeat' split
  all_goals rfl

theorem bindSource_succeeds (i : Nat) (d : UioDev) (c : Interrupt) (n : Nat)
    (pfds : List Pollfd) :
    succeeds (bindSource i d c n pfds) =
      (decide (0 ≤ d.devFd) &&
        (!wantsGpioValue c.flags || succeeds (resolveGpio d.gpio d.errno c))) := by
  have hg := resolveGpio_succeeds d.gpio d.errno c { c with uio_idx := i, p := some n }
  simp only [bindSource]
  by_cases hfd : d.devFd < 0
  · have : ¬ (0 ≤ d.devFd) := by omega
    simp [hfd, succeeds, this]
  · have h0 : 0 ≤ d.devFd := by omega
    simp only [hfd, if_false, h0, decide_True, Bool.true_and]
    by_cases hw : wantsGpioValue c.flags = true
    · simp only [hw, if_true, Bool.not_true, Bool.false_or]
      rw [hg]
      cases resolveGpio d.gpio d.errno { c with uio_idx := i, p := some n } <;> rfl
    · simp [hw, succeeds]

theorem matchLoop_succeeds (i : Nat) (d : UioDev) (n : Nat) (pfds : List Pollfd)
    (ints : List Interrupt) :
    succeeds (matchLoop i d n pfds ints) =
      probeSucceeds d (ints.map (fun c => (c.id, c.flags))) := by
  induction ints with
  | nil => rfl
  | cons c cs ih =>
    simp only [matchLoop, List.map_cons, probeSucceeds]
    by_cases hname : devName d = c.id
    · simp only [hname, if_true]
      rw [← hname, resolveGpio_succeeds d.gpio d.errno _ c, ← bindSource_succeeds i d c n pfds]
      cases bindSource i d c n pfds <;> rfl
    · simp only [hname, if_false]
      rw [← ih]
      cases matchLoop i d n pfds cs <;> rfl

theorem probeDevice_succeeds (i : Nat) (d : UioDev) (ints : List Interrupt) (n : Nat)
    (pfds : List Pollfd) :
    succeeds (probeDevice i d ints n pfds) =
      deviceUsable (ints.map (fun c => (c.id, c.flags))) d := by
  simp only [probeDevice, deviceUsable]
  by_cases h : d.nameData.length < 1
  · have : ¬ (1 ≤ d.nameData.length) := by omega
    simp [h, this, succeeds]
  · have : 1 ≤ d.nameData.length := by omega
    simp only [h, if_false, this, decide_True, Bool.true_and]
    exact matchLoop_succeeds i d n pfds ints

theorem keys_eq {a b : List Interrupt} (hid : a.map (fun c => c.id) = b.map (fun c => c.id))
    (hfl : a.map (fun c => c.flags) = b.map (fun c => c.flags)) :
    a.map (fun c => (c.id, c.flags)) = b.map (fun c => (c.id, c.flags)) := by
  induction a generalizing b with
  | nil =>
    cases b with
    | nil => rfl
    | cons _ _ => simp at hid
  | cons x xs ih =>
    cases b with
    | nil => simp at hid
    | cons y ys =>
      simp only [List.map_cons, List.cons.injEq] at hid hfl ⊢
      exact ⟨by rw [hid.1, hfl.1], ih hid.2 hfl.2⟩

theorem probeDevice_ok {i : Nat} {d : UioDev} {n : Nat} {pfds : List Pollfd}
    {ints ints1 : List Interrupt} {n1 : Nat} {pfds1 : List Pollfd}
    (h : probeDevice i d ints n pfds = .ok (ints1, n1, pfds1)) :
    ints1.map (fun c => c.id) = ints.map (fun c => c.id) ∧
    ints1.map (fun c => c.flags) = ints.map (fun c => c.flags) ∧
    ((ints.map (fun c => c.id)).Nodup →
      ints1.map (fun c => c.p.isSome) =
        ints.map (fun c => c.p.isSome || decide (c.id = devName d))) := by
  simp only [probeDevice] at h
  split at h
  · cases h
  · exact matchLoop_ok h

/-- The outer loop keeps every `id` and `flags`; with pairwise distinct
identifiers a source is bound afterwards exactly when it was bound before or
is named after one of the `todo` devices looked at. -/
theorem discoverLoop_ok :
    ∀ (todo i : Nat) (devs : List UioDev) (ints : List Interrupt) (n : Nat)
      (pfds : List Pollfd) (ints1 : List Interrupt) (n1 : Nat) (pfds1 : List Pollfd),
      discoverLoop todo i devs ints n pfds = .ok (ints1, n1, pfds1) →
      ints1.map (fun c => c.id) = ints.map (fun c => c.id) ∧
      ints1.map (fun c => c.flags) = ints.map (fun c => c.flags) ∧
      ((ints.map (fun c => c.id)).Nodup →
        ints1.map (fun c => c.p.isSome) =
          ints.map (fun c => c.p.isSome ||
            decide (c.id ∈ (devs.take todo).map devName))) := by
  intro todo
  induction todo with
  | zero =>
    intro i devs ints n pfds ints1 n1 pfds1 h
    simp only [discoverLoop] at h
    injection h with h
    simp only [Prod.mk.injEq] at h
    obtain ⟨h1, -, -⟩ := h
    subst h1
    simp
  | succ todo ih =>
    intro i devs ints n pfds ints1 n1 pfds1 h
    cases devs with
    | nil => simp [discoverLoop] at h
    | cons d ds =>
      simp only [discoverLoop] at h
      split at h
      · cases h
      · rename_i ints2 n2 pfds2 hp
        obtain ⟨hid2, hfl2, hb2⟩ := probeDevice_ok hp
        obtain ⟨hid1, hfl1, hb1⟩ := ih (i + 1) ds ints2 n2 pfds2 ints1 n1 pfds1 h
        refine ⟨hid1.trans hid2, hfl1.trans hfl2, ?_⟩
        intro hnd
        rw [hb1 (hid2 ▸ hnd)]
        have hb2 := hb2 hnd
        have hzip : ∀ (a b : List Interrupt),
            a.map (fun c => c.id) = b.map (fun c => c.id) →
            a.map (fun c => c.p.isSome) =
              b.map (fun c => c.p.isSome || decide (c.id = devName d)) →
            a.map (fun c => c.p.isSome || decide (c.id ∈ (ds.take todo).map devName)) =
              b.map (fun c => c.p.isSome ||
                decide (c.id ∈ ((d :: ds).take (todo + 1)).map devName)) := by
          intro a
          induction a with
          | nil =>
            intro b h1 _
            cases b with
            | nil => rfl
            | cons _ _ => simp at h1
          | cons x xs ihx =>
            intro b h1 h2
            cases b with
            | nil => simp at h1
            | cons y ys =>
              simp only [List.map_cons, List.cons.injEq] at h1 h2 ⊢
              refine ⟨?_, ihx ys h1.2 h2.2⟩
              rw [h2.1, h1.1]
              simp only [List.take_succ_cons, List.map_cons, List.mem_cons]
              by_cases hy : y.id = devName d <;> simp [hy, Bool.or_assoc]
        exact hzip ints2 ints hid2 hb2

theorem discoverLoop_succeeds :
    ∀ (todo i : Nat) (devs : List UioDev) (ints : List Interrupt) (n : Nat)
      (pfds : List Pollfd),
      succeeds (discoverLoop todo i devs ints n pfds) =
        (decide (todo ≤ devs.length) &&
          (devs.take todo).all (deviceUsable (ints.map (fun c => (c.id, c.flags))))) := by
  intro todo
  induction todo with
  | zero =>
    intro i devs ints n pfds
    simp [discoverLoop, succeeds]
  | succ todo ih =>
    intro i devs ints n pfds
    cases devs with
    | nil => simp [discoverLoop, succeeds]
    | cons d ds =>
      simp only [discoverLoop, List.take_succ_cons, List.all_cons, List.length_cons,
        Nat.add_le_add_iff_right]
      have hp := probeDevice_succeeds i d ints n pfds
      cases hpd : probeDevice i d ints n pfds with
      | error e =>
        rw [hpd] at hp
        simp only [succeeds] at hp
        simp [← hp, succeeds]
      | ok r =>
        obtain ⟨ints2, n2, pfds2⟩ := r
        rw [hpd] at hp
        simp only [succeeds] at hp
        obtain ⟨hid, hfl, -⟩ := probeDevice_ok hpd
        simp only [← hp, Bool.true_and]
        rw [ih (i + 1) ds ints2 n2 pfds2, keys_eq hid hfl]

theorem succeeds_iff {α : Type} (r : Except Int α) : succeeds r = true ↔ ∃ a, r = .ok a := by
  cases r <;> simp [succeeds]

theorem boundCount_eq_matchedCount {cfg : List Section} {devs : List UioDev}
    {r : List Interrupt × Nat × List Pollfd}
    (hnd : (cfg.map (fun s => s.id)).Nodup) (h : discover cfg devs = .ok r) :
    boundCount r.1 = matchedCount cfg (devs.take cfg.length) := by
  obtain ⟨ints, n, pfds⟩ := r
  have hnd2 : ((configInts cfg).map (fun c => c.id)).Nodup := by
    simpa [configInts, Section.toInterrupt, Function.comp_def] using hnd
  obtain ⟨-, -, hb⟩ := discoverLoop_ok _ _ _ _ _ _ _ _ _ h
  have hb := hb hnd2
  have h1 : boundCount ints = (ints.map (fun c => c.p.isSome)).countP (fun b => b) := by
    rw [List.countP_map]; rfl
  rw [h1, hb]
  simp [matchedCount, configInts, Section.toInterrupt, List.countP_map, Function.comp_def]

theorem discover_succeeds_perm {cfg : List Section} {devs devs2 : List UioDev}
    (hperm : (devs2.take cfg.length).Perm (devs.take cfg.length))
    (h : succeeds (discover cfg devs) = true) : succeeds (discover cfg devs2) = true := by
  simp only [discover, discoverLoop_succeeds, Bool.and_eq_true, decide_eq_true_eq,
    List.all_eq_true] at h ⊢
  obtain ⟨hlen, hall⟩ := h
  have hl := hperm.length_eq
  simp only [List.length_take] at hl
  refine ⟨by omega, ?_⟩
  intro d hd
  exact hall d (hperm.mem_iff.mp hd)

/-- Among the first `n` devices (`n` the number of configured sources), the
only ones the outer loop looks at, discovery counts right: with pairwise
distinct identifiers, whenever it succeeds the number of bound sources equals
the number of identifiers equal to the name of one of those `n` devices, and
any reordering of those `n` devices succeeds as well, with the same number of
bound sources. -/
theorem discover_bound_count (cfg : List Section) (devs devs2 : List UioDev)
    (r : List Interrupt × Nat × List Pollfd)
    (hnd : (cfg.map (fun s => s.id)).Nodup)
    (hperm : (devs2.take cfg.length).Perm (devs.take cfg.length))
    (h : discover cfg devs = .ok r) :
    boundCount r.1 = matchedCount cfg (devs.take cfg.length) ∧
    ∃ r2, discover cfg devs2 = .ok r2 ∧ boundCount r2.1 = boundCount r.1 := by
  have h1 := boundCount_eq_matchedCount hnd h
  refine ⟨h1, ?_⟩
  have hs : succeeds (discover cfg devs) = true := (succeeds_iff _).mpr ⟨r, h⟩
  obtain ⟨r2, hr2⟩ := (succeeds_iff _).mp (discover_succeeds_perm hperm hs)
  refine ⟨r2, hr2, ?_⟩
  rw [boundCount_eq_matchedCount hnd hr2, h1]
  simp only [matchedCount]
  apply List.countP_congr
  intro s _
  simp only [decide_eq_true_eq, List.mem_map]
  constructor
  · rintro ⟨d, hd, hn⟩
    exact ⟨d, hperm.mem_iff.mp hd, hn⟩
  · rintro ⟨d, hd, hn⟩
    exact ⟨d, hperm.mem_iff.mpr hd, hn⟩

/-- The scenario: sources `button`, `timer` with the devices enumerated as
`timer`, `button` (and reordered as `button`, `timer`) resolve both. -/
theorem discover_bound_count_witness :
    (∃ r, discover cfgButtonTimer [devTimer, devButton] = .ok r ∧ boundCount r.1 = 2) ∧
    matchedCount cfgButtonTimer ([devTimer, devButton].take cfgButtonTimer.length) = 2 ∧
    ∃ r2, discover cfgButtonTimer [devButton, devTimer] = .ok r2 ∧ boundCount r2.1 = 2 := by
  have hd : ∃ r, discover cfgButtonTimer [devTimer, devButton] = .ok r := ⟨_, rfl⟩
  obtain ⟨r, hr⟩ := hd
  have hm : matchedCount cfgButtonTimer ([devTimer, devButton].take cfgButtonTimer.length) = 2 := by
    decide
  obtain ⟨h1, r2, h2, h3⟩ := discover_bound_count cfgButtonTimer [devTimer, devButton]
    [devButton, devTimer] r (by decide) (List.Perm.swap _ _ _) hr
  exact ⟨⟨r, hr, h1.trans hm⟩, hm, r2, h2, h3.trans (h1.trans hm)⟩

/-- C1: one configured source `button` (so `n_ints = 1`) and two devices.
Enumerated as `uio0 = timer`, `uio1 = button`, the loop `for (i=0; i<n_ints;
i++)` reads the name of `uio0` only and discovery ends with no source bound,
although the identifier equals the name of an enumerated device (the count
the specification gives is 1). Enumerated as `uio0 = button`, `uio1 = timer`, the same
source is bound: the number of resolved sources depends on the order of
enumeration. -/
theorem discover_ignores_later_devices :
    (cfgButton.map (fun s => s.id)).Nodup ∧
    matchedCount cfgButton [devTimer, devButton] = 1 ∧
    (∃ r, discover cfgButton [devTimer, devButton] = .ok r ∧ boundCount r.1 = 0) ∧
    matchedCount cfgButton [devButton, devTimer] = 1 ∧
    (∃ r, discover cfgButton [devButton, devTimer] = .ok r ∧ boundCount r.1 = 1) := by
  refine ⟨by decide, by decide, ⟨_, rfl, by decide⟩, by decide, ⟨_, rfl, by decide⟩⟩

/-! ## Sources without a matching device -/

theorem fgetsChunk_length (n : Nat) (b : Nat) (bs : List Nat) :
    0 < (fgetsChunk (n + 1) (b :: bs)).length := by
  simp only [fgetsChunk]
  split <;> simp

/-- The loop ends by the NULL result of `fgets`, not by lack of fuel: any two
amounts of fuel above the file length give the same buffer. -/
theorem fgetsAll_fuel (size : Nat) (hsize : 2 ≤ size) :
    ∀ (fuel fuel2 : Nat) (buf file : List Nat), file.length < fuel → file.length < fuel2 →
      fgetsAll size fuel buf file = fgetsAll size fuel2 buf file := by
  intro fuel
  induction fuel with
  | zero => intro fuel2 buf file h; omega
  | succ fuel ih =>
    intro fuel2 buf file h1 h2
    cases fuel2 with
    | zero => omega
    | succ fuel2 =>
      cases file with
      | nil => simp [fgetsAll, fgets]
      | cons b bs =>
        obtain ⟨m, hm⟩ : ∃ m, size - 1 = m + 1 := ⟨size - 2, by omega⟩
        have hpos := fgetsChunk_length m b bs
        simp only [fgetsAll, fgets, hm]
        apply ih
        · simp only [List.length_drop, List.length_cons] at h1 ⊢
          omega
        · simp only [List.length_drop, List.length_cons] at h2 ⊢
          omega

theorem load32_cons (a b c d : Nat) (rest : List Nat) :
    load32 (a :: b :: c :: d :: rest) =
      a % 256 + b % 256 * 256 + c % 256 * 65536 + d % 256 * 16777216 := rfl

theorem readLastLine_line10 (buf : List Nat) :
    ∃ rest, readLastLine buf [0, 0, 0, 10, 0, 0, 0, 0] = 0 :: 0 :: 0 :: 0 :: rest :=
  ⟨_, by simp [readLastLine, fgetsAll, fgets, fgetsChunk, storeLine, BUFSIZE]; rfl⟩

theorem readLastLine_line5 (buf : List Nat) :
    ∃ rest, readLastLine buf [0, 0, 0, 5, 0, 0, 0, 0] = 0 :: 0 :: 0 :: 5 :: rest :=
  ⟨_, by simp [readLastLine, fgetsAll, fgets, fgetsChunk, storeLine, BUFSIZE]; rfl⟩

/-- C3: the `gpios` property of line 10 is the eight bytes `00 00 00 0a 00 00
00 00`. The first `fgets` call stops after the byte `0a`, the second call
overwrites the start of the buffer with the four flag bytes, and `gpionum`
becomes 0 whatever the buffer held before, while the big-endian value of the
first four file bytes is 10. (For line 5, whose property has no byte `0a`, the
loop leaves the file start in place and `gpionum` is 5.) -/
theorem gpionum_newline_byte (buf : List Nat) :
    readGpionum buf [0, 0, 0, 10, 0, 0, 0, 0] = 0 ∧
    bigEndian32 [0, 0, 0, 10, 0, 0, 0, 0] = 10 ∧
    readGpionum buf [0, 0, 0, 5, 0, 0, 0, 0] = 5 := by
  obtain ⟨r10, h10⟩ := readLastLine_line10 buf
  obtain ⟨r5, h5⟩ := readLastLine_line5 buf
  refine ⟨?_, by decide, ?_⟩
  · rw [readGpionum, h10, load32_cons]
    decide
  · rw [readGpionum, h5, load32_cons]
    decide

/-! ## Arm phase -/

theorem armPhase_ok (env : IterEnv) (pfds : List Pollfd) (info : Nat) :
    ∀ (ints : List Interrupt) (j0 : Nat), writesOk env j0 ints →
      armPhase env pfds info j0 ints = (armWrites pfds info j0 ints, none) := by
  intro ints
  induction ints with
  | nil => intro j0 _; rfl
  | cons c cs ih =>
    intro j0 h
    have hcs : writesOk env (j0 + 1) cs := by
      intro jc hjc hp
      exact h jc (by simp [List.enumFrom_cons, hjc]) hp
    have ih := ih (j0 + 1) hcs
    cases hp : c.p with
    | none =>
      simp only [armPhase, hp, ih, armWrites, List.enumFrom_cons, List.filterMap_cons,
        Option.map_none']
    | some k =>
      have hw : env.writeRet j0 = 4 := h (j0, c) (by simp [List.enumFrom_cons]) (by simp [hp])
      simp only [armPhase, hp, hw, ih, armWrites, List.enumFrom_cons, List.filterMap_cons,
        Option.map_some', ne_eq, not_true_eq_false, if_false]

theorem armPhase_fail (env : IterEnv) (pfds : List Pollfd) (info : Nat) :
    ∀ (ints : List Interrupt) (j0 : Nat), ¬ writesOk env j0 ints →
      ∃ pre post j fd nb, nb ≠ 4 ∧
        armWrites pfds info j0 ints = pre ++ Event.write j fd info 4 :: post ∧
        armPhase env pfds info j0 ints =
          (pre ++ [Event.write j fd info nb, Event.stderr Diag.writeUmask],
            some (-env.errno)) := by
  intro ints
  induction ints with
  | nil =>
    intro j0 h
    exact absurd (fun jc hjc => by simp at hjc) h
  | cons c cs ih =>
    intro j0 h
    cases hp : c.p with
    | none =>
      have hcs : ¬ writesOk env (j0 + 1) cs := by
        intro hcs
        apply h
        intro jc hjc hq
        simp only [List.enumFrom_cons, List.mem_cons] at hjc
        rcases hjc with rfl | hjc
        · simp [hp] at hq
        · exact hcs jc hjc hq
      obtain ⟨pre, post, j, fd, nb, hnb, hw, ha⟩ := ih (j0 + 1) hcs
      refine ⟨pre, post, j, fd, nb, hnb, ?_, ?_⟩
      · simpa only [armWrites, List.enumFrom_cons, List.filterMap_cons, hp, Option.map_none']
          using hw
      · simpa only [armPhase, hp] using ha
    | some k =>
      by_cases hw : env.writeRet j0 = 4
      · have hcs : ¬ writesOk env (j0 + 1) cs := by
          intro hcs
          apply h
          intro jc hjc hq
          simp only [List.enumFrom_cons, List.mem_cons] at hjc
          rcases hjc with rfl | hjc
          · exact hw
          · exact hcs jc hjc hq
        obtain ⟨pre, post, j, fd, nb, hnb, hwr, ha⟩ := ih (j0 + 1) hcs
        refine ⟨Event.write j0 (pfds.getD k default).fd info 4 :: pre, post, j, fd, nb, hnb,
          ?_, ?_⟩
        · simp only [armWrites, List.enumFrom_cons, List.filterMap_cons, hp, Option.map_some',
            List.cons_append, List.cons.injEq, true_and]
          exact hwr
        · simp only [armPhase, hp, hw, ha, ne_eq, not_true_eq_false, if_false,
            List.cons_append]
      · refine ⟨[], armWrites pfds info (j0 + 1) cs, j0, (pfds.getD k default).fd,
          env.writeRet j0, hw, ?_, ?_⟩
        · simp only [armWrites, List.enumFrom_cons, List.filterMap_cons, hp, Option.map_some',
            List.nil_append]
        · simp only [armPhase, hp, ne_eq, hw, not_false_eq_true, if_true, List.nil_append]

/-- C4: take any state of the loop and any answers of the system for the
iteration that starts there. If every write of the arm phase transfers 4
bytes, the run starts with exactly one write per source that has a handle, in
the order of `ints` (none for a source without handle), followed by the call
of `poll`. Otherwise the writes stop at the first one that does not transfer 4
bytes, `main` returns, and `poll` is never called. -/
theorem arm_phase_complete (verbose : Bool) (env : IterEnv) (envs : List IterEnv)
    (st : State) :
    (writesOk env 0 st.ints →
      ∃ rest, (mainLoop verbose (env :: envs) st).trace =
        armWrites st.pfds st.info 0 st.ints ++ Event.poll st.n_pfds env.pollRet :: rest) ∧
    (¬ writesOk env 0 st.ints →
      ∃ pre post j fd nb, nb ≠ 4 ∧
        armWrites st.pfds st.info 0 st.ints = pre ++ Event.write j fd st.info 4 :: post ∧
        mainLoop verbose (env :: envs) st =
          ⟨pre ++ [Event.write j fd st.info nb, Event.stderr Diag.writeUmask],
            some (-env.errno)⟩) := by
  constructor
  · intro h
    have ha := armPhase_ok env st.pfds st.info st.ints 0 h
    simp only [mainLoop, iteration, ha]
    by_cases hr : 1 ≤ env.pollRet
    · simp only [hr, if_true]
      split
      · exact ⟨_, rfl⟩
      · exact ⟨_, by simp only [List.append_assoc, List.cons_append]; rfl⟩
    · simp only [hr, if_false]
      exact ⟨_, rfl⟩
  · intro h
    obtain ⟨pre, post, j, fd, nb, hnb, hw, ha⟩ := armPhase_fail env st.pfds st.info st.ints 0 h
    refine ⟨pre, post, j, fd, nb, hnb, hw, ?_⟩
    simp only [mainLoop, iteration, ha]

/-! ## Drain phase: sources that are not ready -/

theorem getD_set_revents (pfds : List Pollfd) (k k2 : Nat) (pf : Pollfd)
    (h : (pfds.getD k2 default).revents = 0) (hpf : pf.revents = 0) :
    ((pfds.set k pf).getD k2 default).revents = 0 := by
  simp only [List.getD_eq_getElem?_getD, List.getElem?_set] at h ⊢
  by_cases hk : k = k2
  · subst hk
    by_cases hlt : k < pfds.length
    · simp [hlt, hpf]
    · simp only [hlt, if_false, if_true]
      rfl
  · simp only [hk, if_false]
    exact h

theorem dispatch_touches (env : IterEnv) (verbose : Bool) (j j2 : Nat) (c : Interrupt)
    (hj : j ≠ j2) : ∀ e ∈ dispatch env verbose j c, e.touches j2 = false := by
  have hall : (dispatch env verbose j c).all (fun e => !e.touches j2) = true := by
    simp only [dispatch]
    repeat' split
    all_goals simp [Event.touches, hj]
  intro e he
  simpa using List.all_eq_true.mp hall e he

theorem drainOne_touches (env : IterEnv) (verbose : Bool) (j j2 : Nat) (c : Interrupt)
    (pfds : List Pollfd) (info : Nat) (hj : j ≠ j2) :
    ∀ e ∈ (drainOne env verbose j c pfds info).events, e.touches j2 = false := by
  intro e he
  simp only [drainOne] at he
  repeat' split at he
  · simp at he
  · simp at he
  · simp only [List.mem_cons] at he
    rcases he with rfl | he
    · simp [Event.touches, hj]
    · exact dispatch_touches env verbose j j2 c hj e he
  · simp only [List.mem_cons, List.mem_singleton, List.not_mem_nil, or_false] at he
    rcases he with rfl | rfl <;> simp [Event.touches, hj]

theorem drainOne_revents (env : IterEnv) (verbose : Bool) (j : Nat) (c : Interrupt)
    (pfds : List Pollfd) (info : Nat) (k2 : Nat)
    (h : (pfds.getD k2 default).revents = 0) :
    (((drainOne env verbose j c pfds info).pfds).getD k2 default).revents = 0 := by
  simp only [drainOne]
  repeat' split
  · exact h
  · exact h
  · exact getD_set_revents pfds _ k2 _ h rfl
  · exact h

theorem clearReady_revents (pfds : List Pollfd) (k : Nat) :
    ((clearReady pfds k).getD k default).revents = 0 := by
  simp only [clearReady, List.getD_eq_getElem?_getD, List.getElem?_set]
  by_cases hlt : k < pfds.length
  · simp [hlt]
  · simp only [hlt, if_false, if_true]
    rfl

theorem drainOne_not_ready (env : IterEnv) (verbose : Bool) (j : Nat) (c : Interrupt)
    (pfds : List Pollfd) (info : Nat)
    (h : ∀ k, c.p = some k → (pfds.getD k default).revents = 0) :
    drainOne env verbose j c pfds info = ⟨[], pfds, info, none⟩ := by
  simp only [drainOne]
  split
  · rfl
  · rename_i k hk
    simp only [h k hk, if_true]

theorem drain_not_ready (env : IterEnv) (verbose : Bool) (j : Nat) :
    ∀ (cs : List Interrupt) (j0 : Nat) (pfds : List Pollfd) (info : Nat),
      (∀ c, (j, c) ∈ cs.enumFrom j0 → ∀ k, c.p = some k → (pfds.getD k default).revents = 0) →
      ∀ e ∈ (drain env verbose j0 cs pfds info).events, e.touches j = false := by
  intro cs
  induction cs with
  | nil =>
    intro j0 pfds info _ e he
    simp [drain] at he
  | cons c cs ih =>
    intro j0 pfds info h e he
    have hrest : ∀ c2, (j, c2) ∈ cs.enumFrom (j0 + 1) → ∀ k, c2.p = some k →
        (((drainOne env verbose j0 c pfds info).pfds).getD k default).revents = 0 := by
      intro c2 hc2 k hk
      exact drainOne_revents env verbose j0 c pfds info k
        (h c2 (by simp [List.enumFrom_cons, hc2]) k hk)
    have hhead : ∀ e ∈ (drainOne env verbose j0 c pfds info).events, e.touches j = false := by
      by_cases hj : j0 = j
      · subst hj
        rw [drainOne_not_ready env verbose j0 c pfds info
          (h c (by simp [List.enumFrom_cons]))]
        intro e he
        simp at he
      · exact drainOne_touches env verbose j0 j c pfds info hj
    simp only [drain] at he
    split at he
    · exact hhead e he
    · simp only [List.mem_append] at he
      rcases he with he | he
      · exact hhead e he
      · exact ih (j0 + 1) _ _ hrest e he

theorem armPhase_touches (env : IterEnv) (pfds : List Pollfd) (info : Nat) (j : Nat) :
    ∀ (cs : List Interrupt) (j0 : Nat),
      ∀ e ∈ (armPhase env pfds info j0 cs).1, e.touches j = false := by
  intro cs
  induction cs with
  | nil => intro j0 e he; simp [armPhase] at he
  | cons c cs ih =>
    intro j0 e he
    simp only [armPhase] at he
    split at he
    · exact ih (j0 + 1) e he
    · split at he
      · simp only [List.mem_cons, List.mem_singleton, List.not_mem_nil, or_false] at he
        rcases he with rfl | rfl <;> rfl
      · simp only [List.mem_cons] at he
        rcases he with rfl | he
        · rfl
        · exact ih (j0 + 1) e he

/-- C5: in any iteration of the loop, a source whose `revents` is 0 after
`poll` has stored its results (or that has no handle at all) is left alone:
the iteration contains no event-counter read, no GPIO value query, no
command execution and no log line on behalf of that source. -/
theorem not_ready_untouched (env : IterEnv) (verbose : Bool) (st : State) (j : Nat)
    (c : Interrupt) (hc : st.ints[j]? = some c)
    (hr : ∀ k, c.p = some k →
      ((pollStore env st.n_pfds st.pfds).getD k default).revents = 0) :
    ∀ e ∈ (iteration env verbose st).events, e.touches j = false := by
  have harm := armPhase_touches env st.pfds st.info j st.ints 0
  have hdrain := drain_not_ready env verbose j st.ints 0
    (pollStore env st.n_pfds st.pfds) st.info (by
      intro c2 hc2 k hk
      have : st.ints[j]? = some c2 := by
        have := List.mk_mem_enum_iff_getElem?.mp hc2
        simpa using this
      rw [hc] at this
      injection this with this
      subst this
      exact hr k hk)
  intro e he
  simp only [iteration] at he
  split at he
  · exact harm e he
  · split at he
    · simp only [List.mem_append, List.mem_cons] at he
      rcases he with he | rfl | he
      · exact harm e he
      · rfl
      · exact hdrain e he
    · simp only [List.mem_append, List.mem_cons, List.mem_singleton, List.not_mem_nil,
        or_false] at he
      rcases he with he | rfl | rfl
      · exact harm e he
      · rfl
      · rfl

/-- C5, witness: only `timer` is ready; the iteration reads and logs `timer`
and does nothing on behalf of `button` (source 0). -/
theorem not_ready_untouched_witness :
    (iteration envTimerOnly false stScenario).events =
      [Event.write 0 4 1 4, Event.write 1 3 1 4, Event.poll 2 1, Event.read 1 3 4 8,
        Event.stdout 1 "int: timer\n".toList] ∧
    ∀ e ∈ (iteration envTimerOnly false stScenario).events, e.touches 0 = false :=
  ⟨by decide,
    not_ready_untouched envTimerOnly false stScenario 0
      { id := "button".toList, uio_idx := 1, p := some 1, flags := 1,
        gpiochip := some "/dev/gpiochip0".toList, gpionum := 5, gpioc_fd := 7,
        gpio_fd := 9, cmd := some "led %d".toList }
      rfl
      (by
        intro k hk
        injection hk with hk
        subst hk
        decide)⟩

/-! ## Drain phase: malformed reads -/

theorem badReadsFatal_of_none (ret : Option Int) :
    ∀ (a : List Event), (∀ e ∈ a, e.isBadRead = false) → BadReadsFatal ret a := by
  intro a
  induction a with
  | nil => intro _; trivial
  | cons x xs ih =>
    intro h
    refine ⟨?_, ih (fun e he => h e (List.mem_cons_of_mem _ he))⟩
    intro hx
    rw [h x (List.mem_cons_self _ _)] at hx
    cases hx

theorem badReadsFatal_append (ret : Option Int) (b : List Event) :
    ∀ (a : List Event), (∀ e ∈ a, e.isBadRead = false) → BadReadsFatal ret b →
      BadReadsFatal ret (a ++ b) := by
  intro a
  induction a with
  | nil => intro _ hb; exact hb
  | cons x xs ih =>
    intro h hb
    refine ⟨?_, ih (fun e he => h e (List.mem_cons_of_mem _ he)) hb⟩
    intro hx
    rw [h x (List.mem_cons_self _ _)] at hx
    cases hx

theorem badReadsFatal_split (ret : Option Int) (e : Event) (post : List Event) :
    ∀ (pre : List Event), BadReadsFatal ret (pre ++ e :: post) → e.isBadRead = true →
      post = [Event.stderr Diag.unexpectedAmount] ∧ ret = some (-1) := by
  intro pre
  induction pre with
  | nil => intro h he; exact h.1 he
  | cons x xs ih => intro h he; exact ih h.2 he

theorem dispatch_no_read (env : IterEnv) (verbose : Bool) (j : Nat) (c : Interrupt) :
    ∀ e ∈ dispatch env verbose j c, e.isBadRead = false := by
  have hall : (dispatch env verbose j c).all (fun e => !e.isBadRead) = true := by
    simp only [dispatch]
    repeat' split
    all_goals simp [Event.isBadRead]
  intro e he
  simpa using List.all_eq_true.mp hall e he

theorem drainOne_badReads (env : IterEnv) (verbose : Bool) (j : Nat) (c : Interrupt)
    (pfds : List Pollfd) (info : Nat) :
    ((drainOne env verbose j c pfds info).ret = none →
      ∀ e ∈ (drainOne env verbose j c pfds info).events, e.isBadRead = false) ∧
    BadReadsFatal (drainOne env verbose j c pfds info).ret
      (drainOne env verbose j c pfds info).events := by
  simp only [drainOne]
  repeat' split
  · exact ⟨fun _ e he => by simp at he, trivial⟩
  · exact ⟨fun _ e he => by simp at he, trivial⟩
  · rename_i k hk hrev hnb
    have hno : ∀ e ∈ Event.read j (pfds.getD k default).fd (env.readRet j)
        (env.readVal j % 4294967296) :: dispatch env verbose j c, e.isBadRead = false := by
      intro e he
      simp only [List.mem_cons] at he
      rcases he with rfl | he
      · simp [Event.isBadRead, hnb]
      · exact dispatch_no_read env verbose j c e he
    exact ⟨fun _ => hno, badReadsFatal_of_none _ _ hno⟩
  · refine ⟨fun h => by simp at h, ?_⟩
    simp [BadReadsFatal, Event.isBadRead]

theorem drain_badReads (env : IterEnv) (verbose : Bool) :
    ∀ (cs : List Interrupt) (j0 : Nat) (pfds : List Pollfd) (info : Nat),
      ((drain env verbose j0 cs pfds info).ret = none →
        ∀ e ∈ (drain env verbose j0 cs pfds info).events, e.isBadRead = false) ∧
      BadReadsFatal (drain env verbose j0 cs pfds info).ret
        (drain env verbose j0 cs pfds info).events := by
  intro cs
  induction cs with
  | nil =>
    intro j0 pfds info
    exact ⟨fun _ e he => by simp [drain] at he, trivial⟩
  | cons c cs ih =>
    intro j0 pfds info
    obtain ⟨h1, h2⟩ := drainOne_badReads env verbose j0 c pfds info
    simp only [drain]
    split
    · rename_i e0 he0
      refine ⟨fun h => by simp at h, ?_⟩
      rw [he0] at h2
      exact h2
    · rename_i hnone
      obtain ⟨i1, i2⟩ := ih (j0 + 1) (drainOne env verbose j0 c pfds info).pfds
        (drainOne env verbose j0 c pfds info).info
      refine ⟨?_, badReadsFatal_append _ _ _ (h1 hnone) i2⟩
      intro hr e he
      simp only [List.mem_append] at he
      rcases he with he | he
      · exact h1 hnone e he
      · exact i1 hr e he

theorem armPhase_no_read (env : IterEnv) (pfds : List Pollfd) (info : Nat) :
    ∀ (cs : List Interrupt) (j0 : Nat),
      ∀ e ∈ (armPhase env pfds info j0 cs).1, e.isBadRead = false := by
  intro cs
  induction cs with
  | nil => intro j0 e he; simp [armPhase] at he
  | cons c cs ih =>
    intro j0 e he
    simp only [armPhase] at he
    split at he
    · exact ih (j0 + 1) e he
    · split at he
      · simp only [List.mem_cons, List.mem_singleton, List.not_mem_nil, or_false] at he
        rcases he with rfl | rfl <;> rfl
      · simp only [List.mem_cons] at he
        rcases he with rfl | he
        · rfl
        · exact ih (j0 + 1) e he

theorem iteration_badReads (env : IterEnv) (verbose : Bool) (st : State) :
    ((iteration env verbose st).ret = none →
      ∀ e ∈ (iteration env verbose st).events, e.isBadRead = false) ∧
    BadReadsFatal (iteration env verbose st).ret (iteration env verbose st).events := by
  have harm := armPhase_no_read env st.pfds st.info st.ints 0
  obtain ⟨d1, d2⟩ := drain_badReads env verbose st.ints 0 (pollStore env st.n_pfds st.pfds)
    st.info
  simp only [iteration]
  split
  · exact ⟨fun h => by simp at h, badReadsFatal_of_none _ _ harm⟩
  · split
    · have hp : BadReadsFatal
          (drain env verbose 0 st.ints (pollStore env st.n_pfds st.pfds) st.info).ret
          (Event.poll st.n_pfds env.pollRet ::
            (drain env verbose 0 st.ints (pollStore env st.n_pfds st.pfds) st.info).events) :=
        And.intro (fun h => by simp [Event.isBadRead] at h) d2
      refine ⟨?_, badReadsFatal_append _ _ _ harm hp⟩
      intro hr e he
      simp only [List.mem_append, List.mem_cons] at he
      rcases he with he | rfl | he
      · exact harm e he
      · rfl
      · exact d1 hr e he
    · refine ⟨fun h => by simp at h, badReadsFatal_append _ _ _ harm ?_⟩
      simp [BadReadsFatal, Event.isBadRead]

theorem mainLoop_badReads (verbose : Bool) :
    ∀ (envs : List IterEnv) (st : State),
      BadReadsFatal (mainLoop verbose envs st).ret (mainLoop verbose envs st).trace := by
  intro envs
  induction envs with
  | nil => intro st; trivial
  | cons env envs ih =>
    intro st
    obtain ⟨h1, h2⟩ := iteration_badReads env verbose st
    simp only [mainLoop]
    split
    · rename_i e0 he0
      rw [he0] at h2
      exact h2
    · rename_i hnone
      exact badReadsFatal_append _ _ _ (h1 hnone) (ih _)

/-- C6: in any run of the loop, from any state, an event-counter read that
returns a byte count other than 4 (fewer bytes, or -1 for an error) is
followed by the diagnostic on `stderr` and nothing else, and `main` has
returned -1: no command, no log line, no read for a later source, no further
write and no further `poll`. -/
theorem malformed_read_fatal (verbose : Bool) (envs : List IterEnv) (st : State)
    (pre post : List Event) (j : Nat) (fd nb : Int) (val : Nat)
    (h : (mainLoop verbose envs st).trace = pre ++ Event.read j fd nb val :: post)
    (hnb : nb ≠ 4) :
    post = [Event.stderr Diag.unexpectedAmount] ∧ (mainLoop verbose envs st).ret = some (-1) := by
  have hb := mainLoop_badReads verbose envs st
  rw [h] at hb
  exact badReadsFatal_split _ _ _ pre hb (by simp [Event.isBadRead, hnb])

/-- C6, witness: both sources are ready and the read for `button` returns 2
bytes; `timer` is not read and the second iteration never starts. -/
theorem malformed_read_fatal_witness :
    (mainLoop false [envShortRead, envBoth] stScenario).trace =
      [Event.write 0 4 1 4, Event.write 1 3 1 4, Event.poll 2 1] ++
        Event.read 0 4 2 7 :: [Event.stderr Diag.unexpectedAmount] ∧
    (mainLoop false [envShortRead, envBoth] stScenario).ret = some (-1) :=
  ⟨by decide,
    (malformed_read_fatal false [envShortRead, envBoth] stScenario
      [Event.write 0 4 1 4, Event.write 1 3 1 4, Event.poll 2 1]
      [Event.stderr Diag.unexpectedAmount] 0 4 2 7 (by decide) (by decide)).2⟩

/-! ## The unmask token -/

theorem infoAfter_eq_lastRead :
    ∀ (a : List Event) (info : Nat), infoAfter info a = (lastRead a).getD info := by
  intro a
  induction a with
  | nil => intro info; rfl
  | cons e rest ih =>
    intro info
    simp only [infoAfter, lastRead, ih]
    cases lastRead rest with
    | none => simp
    | some v => simp

theorem infoAfter_append :
    ∀ (a b : List Event) (info : Nat),
      infoAfter info (a ++ b) = infoAfter (infoAfter info a) b := by
  intro a
  induction a with
  | nil => intro b info; rfl
  | cons e rest ih => intro b info; exact ih b _

theorem tokensOk_append :
    ∀ (a b : List Event) (info : Nat), TokensOk info a → TokensOk (infoAfter info a) b →
      TokensOk info (a ++ b) := by
  intro a
  induction a with
  | nil => intro b info _ hb; exact hb
  | cons e rest ih =>
    intro b info ha hb
    exact ⟨ha.1, ih b _ ha.2 hb⟩

theorem tokensOk_split (e : Event) (post : List Event) (tok : Nat) :
    ∀ (pre : List Event) (info : Nat), TokensOk info (pre ++ e :: post) →
      e.token = some tok → tok = infoAfter info pre := by
  intro pre
  induction pre with
  | nil => intro info h he; exact h.1 tok he
  | cons x xs ih => intro info h he; exact ih _ h.2 he

/-- A stretch of events without reads, all of whose writes send `info`. -/
theorem tokensOk_of_plain (info : Nat) :
    ∀ (a : List Event),
      (∀ e ∈ a, e.readValue = none ∧ ∀ tok, e.token = some tok → tok = info) →
      TokensOk info a ∧ infoAfter info a = info := by
  intro a
  induction a with
  | nil => intro _; exact ⟨trivial, rfl⟩
  | cons x xs ih =>
    intro h
    obtain ⟨hr, ht⟩ := h x (List.mem_cons_self _ _)
    obtain ⟨i1, i2⟩ := ih (fun e he => h e (List.mem_cons_of_mem _ he))
    simp only [TokensOk, infoAfter, hr, Option.getD_none]
    exact ⟨⟨ht, i1⟩, i2⟩

theorem armPhase_plain (env : IterEnv) (pfds : List Pollfd) (info : Nat) :
    ∀ (cs : List Interrupt) (j0 : Nat),
      ∀ e ∈ (armPhase env pfds info j0 cs).1,
        e.readValue = none ∧ ∀ tok, e.token = some tok → tok = info := by
  intro cs
  induction cs with
  | nil => intro j0 e he; simp [armPhase] at he
  | cons c cs ih =>
    intro j0 e he
    simp only [armPhase] at he
    split at he
    · exact ih (j0 + 1) e he
    · split at he
      · simp only [List.mem_cons, List.mem_singleton, List.not_mem_nil, or_false] at he
        rcases he with rfl | rfl <;> simp [Event.readValue, Event.token]
      · simp only [List.mem_cons] at he
        rcases he with rfl | he
        · simp [Event.readValue, Event.token]
        · exact ih (j0 + 1) e he

theorem dispatch_plain (env : IterEnv) (verbose : Bool) (j : Nat) (c : Interrupt) (info : Nat) :
    ∀ e ∈ dispatch env verbose j c,
      e.readValue = none ∧ ∀ tok, e.token = some tok → tok = info := by
  have hall : (dispatch env verbose j c).all
      (fun e => e.readValue.isNone && e.token.isNone) = true := by
    simp only [dispatch]
    repeat' split
    all_goals simp [Event.readValue, Event.token]
  intro e he
  have := List.all_eq_true.mp hall e he
  simp only [Bool.and_eq_true, Option.isNone_iff_eq_none] at this
  refine ⟨this.1, ?_⟩
  intro tok ht
  rw [this.2] at ht
  cases ht

theorem drainOne_tokens (env : IterEnv) (verbose : Bool) (j : Nat) (c : Interrupt)
    (pfds : List Pollfd) (info : Nat) :
    (∀ i, TokensOk i (drainOne env verbose j c pfds info).events) ∧
    infoAfter info (drainOne env verbose j c pfds info).events =
      (drainOne env verbose j c pfds info).info := by
  simp only [drainOne]
  repeat' split
  · exact ⟨fun _ => trivial, rfl⟩
  · exact ⟨fun _ => trivial, rfl⟩
  · rename_i k hk hrev hnb
    constructor
    · intro i
      refine ⟨fun tok ht => by simp [Event.token] at ht, ?_⟩
      exact (tokensOk_of_plain _ _ (dispatch_plain env verbose j c _)).1
    · simp only [infoAfter, Event.readValue, hnb, if_true, Option.getD_some]
      exact (tokensOk_of_plain _ _ (dispatch_plain env verbose j c _)).2
  · rename_i k hk hrev hnb
    constructor
    · intro i
      simp [TokensOk, Event.token]
    · simp [infoAfter, Event.readValue, hnb]

theorem drain_tokens (env : IterEnv) (verbose : Bool) :
    ∀ (cs : List Interrupt) (j0 : Nat) (pfds : List Pollfd) (info : Nat),
      (∀ i, TokensOk i (drain env verbose j0 cs pfds info).events) ∧
      infoAfter info (drain env verbose j0 cs pfds info).events =
        (drain env verbose j0 cs pfds info).info := by
  intro cs
  induction cs with
  | nil =>
    intro j0 pfds info
    exact ⟨fun _ => trivial, rfl⟩
  | cons c cs ih =>
    intro j0 pfds info
    obtain ⟨h1, h2⟩ := drainOne_tokens env verbose j0 c pfds info
    simp only [drain]
    split
    · exact ⟨h1, h2⟩
    · obtain ⟨i1, i2⟩ := ih (j0 + 1) (drainOne env verbose j0 c pfds info).pfds
        (drainOne env verbose j0 c pfds info).info
      refine ⟨fun i => tokensOk_append _ _ _ (h1 i) (i1 _), ?_⟩
      simp only [infoAfter_append, h2, i2]

theorem iteration_tokens (env : IterEnv) (verbose : Bool) (st : State) :
    TokensOk st.info (iteration env verbose st).events ∧
    infoAfter st.info (iteration env verbose st).events = (iteration env verbose st).info := by
  obtain ⟨a1, a2⟩ := tokensOk_of_plain st.info _ (armPhase_plain env st.pfds st.info st.ints 0)
  obtain ⟨d1, d2⟩ := drain_tokens env verbose st.ints 0 (pollStore env st.n_pfds st.pfds)
    st.info
  simp only [iteration]
  split
  · exact ⟨a1, a2⟩
  · split
    · constructor
      · apply tokensOk_append _ _ _ a1
        rw [a2]
        exact ⟨fun tok ht => by simp [Event.token] at ht, d1 _⟩
      · simp only [infoAfter_append, a2, infoAfter, Event.readValue, Option.getD_none]
        exact d2
    · constructor
      · apply tokensOk_append _ _ _ a1
        simp [TokensOk, Event.token]
      · simp [infoAfter_append, a2, infoAfter, Event.readValue]

theorem mainLoop_tokens (verbose : Bool) :
    ∀ (envs : List IterEnv) (st : State), TokensOk st.info (mainLoop verbose envs st).trace := by
  intro envs
  induction envs with
  | nil => intro st; trivial
  | cons env envs ih =>
    intro st
    obtain ⟨h1, h2⟩ := iteration_tokens env verbose st
    simp only [mainLoop]
    split
    · exact h1
    · apply tokensOk_append _ _ _ h1
      rw [h2]
      exact ih { st with pfds := (iteration env verbose st).pfds,
                         info := (iteration env verbose st).info }

/-- C10 (amended): in any run of `main`, the value sent by an arm-phase write
is the counter stored by the most recent successful 4-byte event read before
it, and 1 when no such read has happened yet. So every write of the first
iteration sends 1, and every write of a later iteration sends the counter of
the last successful read before its arm phase: the last one of the drain
phase before it when that phase read anything (0 when that counter was 0),
whatever the earlier reads of that phase delivered. -/
theorem unmask_token_value (cfg : List Section) (devs : List UioDev) (verbose : Bool)
    (envs : List IterEnv) (pre post : List Event) (j : Nat) (fd : Int) (tok : Nat) (nb : Int)
    (h : (main cfg devs verbose envs).trace = pre ++ Event.write j fd tok nb :: post) :
    tok = (lastRead pre).getD 1 := by
  rw [← infoAfter_eq_lastRead]
  simp only [main] at h
  split at h
  · have : ([] : List Event) = pre ++ Event.write j fd tok nb :: post := h
    simp at this
  · rename_i ints n_pfds pfds hd
    have ht := mainLoop_tokens verbose envs ⟨ints, pfds, n_pfds, 1⟩
    rw [h] at ht
    exact tokensOk_split _ _ _ pre 1 ht rfl

/-- C10, witness: in the first iteration the counters 5 (`button`) and then 0
(`timer`) are read; the first write of the second iteration sends 0. -/
theorem unmask_token_value_witness :
    (main cfgButtonTimer [devTimer, devButton] false [envCounterZero, envTimerOnly]).trace =
      [Event.write 0 4 1 4, Event.write 1 3 1 4, Event.poll 2 1, Event.read 0 4 4 5,
        Event.gpioGet 0 9 0, Event.system 0 (some "led 1".toList), Event.read 1 3 4 0,
        Event.stdout 1 "int: timer\n".toList] ++
      Event.write 0 4 0 4 ::
        [Event.write 1 3 0 4, Event.poll 2 1, Event.read 1 3 4 8,
          Event.stdout 1 "int: timer\n".toList] ∧
    (0 : Nat) = (lastRead
      [Event.write 0 4 1 4, Event.write 1 3 1 4, Event.poll 2 1, Event.read 0 4 4 5,
        Event.gpioGet 0 9 0, Event.system 0 (some "led 1".toList), Event.read 1 3 4 0,
        Event.stdout 1 "int: timer\n".toList]).getD 1 :=
  ⟨by rfl,
    unmask_token_value cfgButtonTimer [devTimer, devButton] false [envCounterZero, envTimerOnly]
      _ _ 0 4 0 4 (by rfl)⟩

/-- C10, counterexample: two iterations in each of which the counters 5
(`button`) and then 1 (`timer`) are read. Every write of the run sends 1,
although the counter 5 was read twice: only the last read before an arm phase
decides the token. -/
theorem token_one_despite_other_counter :
    (main cfgButtonTimer [devTimer, devButton] false [envFiveOne, envFiveOne]).trace =
      [Event.write 0 4 1 4, Event.write 1 3 1 4, Event.poll 2 1, Event.read 0 4 4 5,
        Event.gpioGet 0 9 0, Event.system 0 (some "led 1".toList), Event.read 1 3 4 1,
        Event.stdout 1 "int: timer\n".toList,
        Event.write 0 4 1 4, Event.write 1 3 1 4, Event.poll 2 1, Event.read 0 4 4 5,
        Event.gpioGet 0 9 0, Event.system 0 (some "led 1".toList), Event.read 1 3 4 1,
        Event.stdout 1 "int: timer\n".toList] ∧
    (∀ e ∈ (main cfgButtonTimer [devTimer, devButton] false [envFiveOne, envFiveOne]).trace,
      ∀ tok, e.token = some tok → tok = 1) ∧
    Event.read 0 4 4 5 ∈
      (main cfgButtonTimer [devTimer, devButton] false [envFiveOne, envFiveOne]).trace := by
  have h : (main cfgButtonTimer [devTimer, devButton] false [envFiveOne, envFiveOne]).trace =
      [Event.write 0 4 1 4, Event.write 1 3 1 4, Event.poll 2 1, Event.read 0 4 4 5,
        Event.gpioGet 0 9 0, Event.system 0 (some "led 1".toList), Event.read 1 3 4 1,
        Event.stdout 1 "int: timer\n".toList,
        Event.write 0 4 1 4, Event.write 1 3 1 4, Event.poll 2 1, Event.read 0 4 4 5,
        Event.gpioGet 0 9 0, Event.system 0 (some "led 1".toList), Event.read 1 3 4 1,
        Event.stdout 1 "int: timer\n".toList] := by rfl
  refine ⟨h, ?_, ?_⟩
  · rw [h]
    decide
  · rw [h]
    decide

/-! ## Dispatch of one event -/

theorem expandAux_plain (v : Nat) :
    ∀ (pre rest : List Char), '%' ∉ pre →
      expandAux v false (pre ++ rest) = (expandAux v false rest).map (fun out => pre ++ out) := by
  intro pre
  induction pre with
  | nil => intro rest _; simp
  | cons ch pre ih =>
    intro rest h
    simp only [List.mem_cons, not_or] at h
    have hch : ¬ (ch = '%') := fun hc => h.1 hc.symm
    have hstep : expandAux v false (ch :: pre ++ rest) =
        (expandAux v false (pre ++ rest)).map (fun out => ch :: out) := by
      simp only [List.cons_append, expandAux, hch, if_false]
      rfl
    rw [hstep, ih rest h.2]
    cases expandAux v false rest <;> rfl

theorem expandFormat_one_d (v : Nat) (pre post : List Char) (h1 : '%' ∉ pre)
    (h2 : '%' ∉ post) :
    expandFormat v (pre ++ '%' :: 'd' :: post) = some (pre ++ decimal v ++ post) := by
  have hpost := expandAux_plain v post [] h2
  simp only [List.append_nil, expandAux, Option.map_some'] at hpost
  rw [expandFormat, expandAux_plain v pre _ h1]
  simp only [expandAux, if_true, hpost, Option.map_some', List.append_assoc]

theorem decimal_length_u8 (v : Nat) (h : v < 256) : (decimal v).length ≤ 3 :=
  Nat.toDigitsCore_length 10 (by omega) (v + 1) v 3 (by omega) (by omega)

theorem snprintf_one_d (v : Nat) (pre post : List Char) (hv : v < 256) (h1 : '%' ∉ pre)
    (h2 : '%' ∉ post) (hlen : (pre ++ '%' :: 'd' :: post).length ≤ BUFSIZE - 2) :
    snprintf BUFSIZE (pre ++ '%' :: 'd' :: post) v = some (pre ++ decimal v ++ post) := by
  have hd := decimal_length_u8 v hv
  simp only [List.length_append, List.length_cons, BUFSIZE] at hlen
  simp only [snprintf, expandFormat_one_d v pre post h1 h2, Option.map_some', Option.some.injEq]
  apply List.take_of_length_le
  simp only [List.length_append, BUFSIZE]
  omega

/-- C7: a ready source flagged for the GPIO value whose event read returned 4
bytes and whose GPIO query succeeded with value `v`. If its command template
has exactly one `%d` and no other `%`, and is at most `BUFSIZE - 2` characters
long (a configuration line has at most that many after its newline is cut),
then the command executed is the template with `%d` replaced by the decimal
text of `v`. If it has no template, nothing is executed and the only output is
the line `int: <id> GPIO value: <v>`. -/
theorem action_invoker_result (env : IterEnv) (verbose : Bool) (j : Nat) (c : Interrupt)
    (pfds : List Pollfd) (info k : Nat) (hp : c.p = some k)
    (hready : (pfds.getD k default).revents ≠ 0) (hread : env.readRet j = 4)
    (hflag : wantsGpioValue c.flags = true) (hok : env.ioctlRet j ≠ -1) :
    (∀ pre post : List Char, c.cmd = some (pre ++ '%' :: 'd' :: post) →
      '%' ∉ pre → '%' ∉ post → (pre ++ '%' :: 'd' :: post).length ≤ BUFSIZE - 2 →
      (drainOne env verbose j c pfds info).events =
        [Event.read j (pfds.getD k default).fd 4 (env.readVal j % 4294967296),
          Event.gpioGet j c.gpio_fd (env.ioctlRet j),
          Event.system j (some (pre ++ decimal (env.gpioVal j % 256) ++ post))] ++
        (if verbose then [Event.stdout j (gpioLogLine c.id (env.gpioVal j % 256))] else [])) ∧
    (c.cmd = none →
      (drainOne env verbose j c pfds info).events =
        [Event.read j (pfds.getD k default).fd 4 (env.readVal j % 4294967296),
          Event.gpioGet j c.gpio_fd (env.ioctlRet j),
          Event.stdout j ("int: ".toList ++ c.id ++ " GPIO value: ".toList ++
            decimal (env.gpioVal j % 256) ++ "\n".toList)]) := by
  constructor
  · intro pre post hcmd h1 h2 hlen
    have hs := snprintf_one_d (env.gpioVal j % 256) pre post (Nat.mod_lt _ (by omega)) h1 h2 hlen
    simp only [drainOne, hp, hready, hread, dispatch, hflag, hok, hcmd, hs, if_true, if_false]
    rfl
  · intro hcmd
    simp only [drainOne, hp, hready, hread, dispatch, hflag, hok, hcmd, if_true, if_false]
    rfl

/-- C7, witness: template `echo %d` and GPIO value 1 execute exactly
`echo 1`. -/
theorem action_invoker_result_witness :
    (drainOne envBoth false 0 srcEcho pfdsReady 1).events =
      [Event.read 0 4 4 7, Event.gpioGet 0 9 0, Event.system 0 (some "echo 1".toList)] :=
  (action_invoker_result envBoth false 0 srcEcho pfdsReady 1 1 rfl (by decide) rfl rfl
    (by decide)).1 "echo ".toList [] rfl (by decide) (by decide) (by decide)

/-- C8: a ready source whose flags have bit 0 clear, after a 4-byte event
read, whatever its GPIO fields hold: no GPIO value query is made; a configured
command is executed as it is written, and without a command the line
`int: <id>` is printed and nothing is executed. -/
theorem no_gpio_without_flag (env : IterEnv) (verbose : Bool) (j : Nat) (c : Interrupt)
    (pfds : List Pollfd) (info k : Nat) (hp : c.p = some k)
    (hready : (pfds.getD k default).revents ≠ 0) (hread : env.readRet j = 4)
    (hflag : wantsGpioValue c.flags = false) :
    (∀ e ∈ (drainOne env verbose j c pfds info).events,
      ∀ j2 fd r, e ≠ Event.gpioGet j2 fd r) ∧
    (∀ cmd, c.cmd = some cmd →
      (drainOne env verbose j c pfds info).events =
        Event.read j (pfds.getD k default).fd 4 (env.readVal j % 4294967296) ::
          Event.system j (some cmd) ::
          (if verbose then [Event.stdout j ("int: ".toList ++ c.id ++ "\n".toList)] else [])) ∧
    (c.cmd = none →
      (drainOne env verbose j c pfds info).events =
        [Event.read j (pfds.getD k default).fd 4 (env.readVal j % 4294967296),
          Event.stdout j ("int: ".toList ++ c.id ++ "\n".toList)]) := by
  have hcmd : ∀ cmd, c.cmd = some cmd →
      (drainOne env verbose j c pfds info).events =
        Event.read j (pfds.getD k default).fd 4 (env.readVal j % 4294967296) ::
          Event.system j (some cmd) ::
          (if verbose then [Event.stdout j ("int: ".toList ++ c.id ++ "\n".toList)] else []) := by
    intro cmd hc
    simp only [drainOne, hp, hready, hread, dispatch, hflag, hc, if_true, if_false]
    rfl
  have hnone : c.cmd = none →
      (drainOne env verbose j c pfds info).events =
        [Event.read j (pfds.getD k default).fd 4 (env.readVal j % 4294967296),
          Event.stdout j ("int: ".toList ++ c.id ++ "\n".toList)] := by
    intro hc
    simp only [drainOne, hp, hready, hread, dispatch, hflag, hc, if_true, if_false]
    rfl
  refine ⟨?_, hcmd, hnone⟩
  intro e he j2 fd r heq
  subst heq
  cases hc : c.cmd with
  | none =>
    rw [hnone hc] at he
    simp at he
  | some cmd =>
    rw [hcmd cmd hc] at he
    cases verbose <;> simp at he

/-- C8, witness: `timer` has flags 0 and no command; its event prints
`int: timer` and queries no GPIO line. -/
theorem no_gpio_without_flag_witness :
    (drainOne envBoth false 1 srcTimer pfdsReady 1).events =
      [Event.read 1 3 4 8, Event.stdout 1 "int: timer\n".toList] :=
  (no_gpio_without_flag envBoth false 1 srcTimer pfdsReady 1 0 rfl (by decide) rfl rfl).2.2 rfl

/-! ## Drain phase: failing GPIO value query -/

theorem drain_append (env : IterEnv) (verbose : Bool) :
    ∀ (a b : List Interrupt) (j0 : Nat) (pfds : List Pollfd) (info : Nat),
      (drain env verbose j0 a pfds info).ret = none →
      drain env verbose j0 (a ++ b) pfds info =
        ⟨(drain env verbose j0 a pfds info).events ++
            (drain env verbose (j0 + a.length) b (drain env verbose j0 a pfds info).pfds
              (drain env verbose j0 a pfds info).info).events,
          (drain env verbose (j0 + a.length) b (drain env verbose j0 a pfds info).pfds
              (drain env verbose j0 a pfds info).info).pfds,
          (drain env verbose (j0 + a.length) b (drain env verbose j0 a pfds info).pfds
              (drain env verbose j0 a pfds info).info).info,
          (drain env verbose (j0 + a.length) b (drain env verbose j0 a pfds info).pfds
              (drain env verbose j0 a pfds info).info).ret⟩ := by
  intro a
  induction a with
  | nil =>
    intro b j0 pfds info _
    simp [drain]
  | cons c cs ih =>
    intro b j0 pfds info h
    simp only [drain] at h
    simp only [List.cons_append, drain, List.length_cons]
    cases hs : (drainOne env verbose j0 c pfds info).ret with
    | some e =>
      rw [hs] at h
      simp at h
    | none =>
      rw [hs] at h
      simp only [List.append_eq] at h ⊢
      rw [ih b (j0 + 1) _ _ h]
      simp only [List.append_assoc, Nat.add_assoc, Nat.add_comm 1 cs.length]

theorem drainOne_gpio_fails (env : IterEnv) (verbose : Bool) (j : Nat) (c : Interrupt)
    (pfds : List Pollfd) (info k : Nat) (hp : c.p = some k)
    (hready : (pfds.getD k default).revents ≠ 0) (hread : env.readRet j = 4)
    (hflag : wantsGpioValue c.flags = true) (hfail : env.ioctlRet j = -1) :
    drainOne env verbose j c pfds info =
      ⟨[Event.read j (pfds.getD k default).fd 4 (env.readVal j % 4294967296),
          Event.gpioGet j c.gpio_fd (-1), Event.stderr Diag.gpioLineValues],
        clearReady pfds k, env.readVal j % 4294967296, none⟩ := by
  simp only [drainOne, hp, hready, hread, dispatch, hflag, hfail, if_true, if_false]

/-- C9: an iteration whose arm phase and `poll` succeed, and in which the
sources `pre` in front of source `c` are drained without a fatal read, leaving
the outcome `d1`. If `c` is ready and flagged for the GPIO value, its event
read returns 4 bytes and its GPIO value query fails, then the iteration does
for `c` the read, the query and a diagnostic only (no command, no `int:`
line), clears the `revents` of `c`, goes on to drain the sources `cs` behind it
in order (with outcome `rest`), and returns only if one of those makes it
return; otherwise the loop goes on with the next iteration, from the state the
drain phase left. -/
theorem gpio_failure_recoverable (env : IterEnv) (verbose : Bool) (envs : List IterEnv)
    (st : State) (pre cs : List Interrupt) (c : Interrupt) (k : Nat) (d1 rest : Step)
    (hints : st.ints = pre ++ c :: cs)
    (harm : writesOk env 0 st.ints) (hpoll : 1 ≤ env.pollRet)
    (hd1 : drain env verbose 0 pre (pollStore env st.n_pfds st.pfds) st.info = d1)
    (hpre : d1.ret = none)
    (hp : c.p = some k)
    (hready : (d1.pfds.getD k default).revents ≠ 0)
    (hread : env.readRet pre.length = 4)
    (hflag : wantsGpioValue c.flags = true)
    (hfail : env.ioctlRet pre.length = -1)
    (hrest : drain env verbose (pre.length + 1) cs (clearReady d1.pfds k)
      (env.readVal pre.length % 4294967296) = rest) :
    (iteration env verbose st).events =
      armWrites st.pfds st.info 0 st.ints ++ Event.poll st.n_pfds env.pollRet ::
        (d1.events ++
          [Event.read pre.length (d1.pfds.getD k default).fd 4
              (env.readVal pre.length % 4294967296),
            Event.gpioGet pre.length c.gpio_fd (-1), Event.stderr Diag.gpioLineValues] ++
          rest.events) ∧
    ((clearReady d1.pfds k).getD k default).revents = 0 ∧
    (iteration env verbose st).ret = rest.ret ∧
    (rest.ret = none →
      mainLoop verbose (env :: envs) st =
        ⟨(iteration env verbose st).events ++
            (mainLoop verbose envs { st with pfds := rest.pfds, info := rest.info }).trace,
          (mainLoop verbose envs { st with pfds := rest.pfds, info := rest.info }).ret⟩) := by
  subst hd1
  have hone := drainOne_gpio_fails env verbose pre.length c
    (drain env verbose 0 pre (pollStore env st.n_pfds st.pfds) st.info).pfds
    (drain env verbose 0 pre (pollStore env st.n_pfds st.pfds) st.info).info k hp hready hread
    hflag hfail
  have hdrain := drain_append env verbose pre (c :: cs) 0 (pollStore env st.n_pfds st.pfds)
    st.info hpre
  simp only [drain, hone, Nat.zero_add, hrest] at hdrain
  have hiter : iteration env verbose st =
      ⟨armWrites st.pfds st.info 0 st.ints ++ Event.poll st.n_pfds env.pollRet ::
          (drain env verbose 0 st.ints (pollStore env st.n_pfds st.pfds) st.info).events,
        (drain env verbose 0 st.ints (pollStore env st.n_pfds st.pfds) st.info).pfds,
        (drain env verbose 0 st.ints (pollStore env st.n_pfds st.pfds) st.info).info,
        (drain env verbose 0 st.ints (pollStore env st.n_pfds st.pfds) st.info).ret⟩ := by
    simp only [iteration, armPhase_ok env st.pfds st.info st.ints 0 harm, hpoll, if_true]
  have hiter2 := hiter
  rw [hints, hdrain, ← hints] at hiter2
  refine ⟨?_, clearReady_revents _ k, ?_, ?_⟩
  · rw [hiter2]
    simp only [List.append_assoc, List.cons_append, List.nil_append]
  · rw [hiter2]
  · intro hnone
    simp only [mainLoop]
    rw [hiter2]
    simp only [hnone]

/-- C9, witness: `button` and `timer` are ready and the GPIO value query for
`button` fails; `timer` is still drained and the loop starts its second
iteration. -/
theorem gpio_failure_recoverable_witness :
    (mainLoop false [envGpioFails, envTimerOnly] stScenario).trace =
      [Event.write 0 4 1 4, Event.write 1 3 1 4, Event.poll 2 1, Event.read 0 4 4 7,
        Event.gpioGet 0 9 (-1), Event.stderr Diag.gpioLineValues, Event.read 1 3 4 8,
        Event.stdout 1 "int: timer\n".toList, Event.write 0 4 8 4, Event.write 1 3 8 4,
        Event.poll 2 1, Event.read 1 3 4 8, Event.stdout 1 "int: timer\n".toList] := by
  have h := (gpio_failure_recoverable envGpioFails false [envTimerOnly] stScenario []
    [srcTimer] _ 1 _ _ rfl (by decide) (by decide) rfl rfl rfl (by decide) rfl rfl rfl
    rfl).2.2.2 rfl
  rw [h]
  rfl

end Uinth
